import Mathlib

/-!
Verification of the password generation and strength-analysis core of
`vibe-password-api` (`src/password.ts`, with the `/strength` request handler
from `src/index.ts`).

Strings are modelled as `List Char`.  The cryptographically secure random
source (`crypto.randomInt`) is modelled as an arbitrary stream of natural
numbers: a `Rng` holds a stream `g : Nat -> Nat` and a cursor; each call to
`randomInt` consumes one stream element and reduces it modulo the bound, so
the returned value is in range for every stream.  All theorems about the
generator quantify over every stream, hence cover every possible sequence
of random draws.  Distributional properties (uniformity) are not modelled.

JavaScript floating-point arithmetic in the analyzer (`Math.log2`,
`Math.round`, `Math.pow`) is idealised as exact real arithmetic.
-/

namespace VibePassword

/-- Model of the cryptographically secure random source: an arbitrary
stream of naturals together with a read cursor. -/
structure Rng where
  g : Nat → Nat
  i : Nat

/-- Model of `crypto.randomInt(0, n)`: consume one stream element and reduce
it modulo the bound, giving a value in `[0, n)` whenever `0 < n`. -/
def randomInt (r : Rng) (n : Nat) : Nat × Rng :=
  (r.g r.i % n, ⟨r.g, r.i + 1⟩)

/-- Options record of `generatePassword` (`GenerateOptions` in
`src/password.ts`); a `none` field means the caller omitted it and the
source-side default applies. -/
structure GenerateOptions where
  length : Option Nat := none
  uppercase : Option Bool := none
  lowercase : Option Bool := none
  numbers : Option Bool := none
  symbols : Option Bool := none
  excludeAmbiguous : Option Bool := none

/-- Character catalog `CHARS.uppercase`. -/
def CHARS_uppercase : List Char := String.toList "ABCDEFGHIJKLMNOPQRSTUVWXYZ"

/-- Character catalog `CHARS.lowercase`. -/
def CHARS_lowercase : List Char := String.toList "abcdefghijklmnopqrstuvwxyz"

/-- Character catalog `CHARS.numbers`. -/
def CHARS_numbers : List Char := String.toList "0123456789"

/-- Character catalog `CHARS.symbols` (braces written as escapes). -/
def CHARS_symbols : List Char := String.toList "!@#$%^&*()_+-=[]\x7b\x7d|;:,.<>?"

/-- Effective uppercase charset: `CHARS.uppercase.replace(/[IO]/g, '')`
when `excludeAmbiguous` is set. -/
def effUppercase (excludeAmbiguous : Bool) : List Char :=
  if excludeAmbiguous then CHARS_uppercase.filter (fun c => !(c == 'I' || c == 'O'))
  else CHARS_uppercase

/-- Effective lowercase charset: `CHARS.lowercase.replace(/[l]/g, '')`
when `excludeAmbiguous` is set. -/
def effLowercase (excludeAmbiguous : Bool) : List Char :=
  if excludeAmbiguous then CHARS_lowercase.filter (fun c => !(c == 'l'))
  else CHARS_lowercase

/-- Effective numbers charset: `CHARS.numbers.replace(/[01]/g, '')`
when `excludeAmbiguous` is set. -/
def effNumbers (excludeAmbiguous : Bool) : List Char :=
  if excludeAmbiguous then CHARS_numbers.filter (fun c => !(c == '0' || c == '1'))
  else CHARS_numbers

/-- Model of `secureRandomChar`: pick the character at a secure random
index.  The default is irrelevant: every call site passes a nonempty list,
mirroring the source where `crypto.randomInt(0, 0)` is unreachable. -/
def secureRandomChar (chars : List Char) (r : Rng) : Char × Rng :=
  let p := randomInt r chars.length
  (chars.getD p.1 'A', p.2)

/-- One `if (class) { ... }` block of `generatePassword`: when the class is
enabled it contributes its charset to the pool and draws one required
character from it. -/
def pickClass (enabled : Bool) (chars : List Char) (r : Rng) :
    List Char × List Char × Rng :=
  if enabled then
    let p := secureRandomChar chars r
    (chars, [p.1], p.2)
  else ([], [], r)

/-- The fill loop of `generatePassword`: draw `n` characters independently
from the combined charset. -/
def drawN (r : Rng) (chars : List Char) : Nat → List Char × Rng
  | 0 => ([], r)
  | Nat.succ k =>
    let p := secureRandomChar chars r
    let rest := drawN p.2 chars k
    (p.1 :: rest.1, rest.2)

/-- Swap the elements at positions `i` and `j`, the single step of the
Fisher-Yates loop (`[result[i], result[j]] = [result[j], result[i]]`). -/
def listSwap {α : Type} (l : List α) (i j : Nat) : List α :=
  match l[i]?, l[j]? with
  | some a, some b => (l.set i b).set j a
  | _, _ => l

/-- The Fisher-Yates loop of `secureShuffleArray`, counting the loop
variable down: `fisherYates k` performs the iterations `i = k, ..., 1` of
`for (let i = result.length - 1; i > 0; i--)`, where iteration `i` swaps
position `i` with a random position `j` drawn by `crypto.randomInt(0, i + 1)`. -/
def fisherYates {α : Type} : Nat → List α → Rng → List α × Rng
  | 0, l, r => (l, r)
  | Nat.succ k, l, r =>
    let p := randomInt r (k + 2)
    fisherYates k (listSwap l (k + 1) p.1) p.2

/-- Model of `secureShuffleArray`. -/
def secureShuffleArray {α : Type} (l : List α) (r : Rng) : List α × Rng :=
  fisherYates (l.length - 1) l r

/-- Body of `generatePassword` after the destructuring of `options` with
defaults (source lines 33-40) has been applied; the four `pickClass` calls
are the four class blocks, in source order. -/
def generateResolved (len : Nat) (uppercase lowercase numbers symbols excludeAmbiguous : Bool)
    (r0 : Rng) : Except (List Char) (List Char) × Rng :=
  let t1 := pickClass uppercase (effUppercase excludeAmbiguous) r0
  let t2 := pickClass lowercase (effLowercase excludeAmbiguous) t1.2.2
  let t3 := pickClass numbers (effNumbers excludeAmbiguous) t2.2.2
  let t4 := pickClass symbols CHARS_symbols t3.2.2
  let charset := t1.1 ++ t2.1 ++ t3.1 ++ t4.1
  let required := t1.2.1 ++ t2.2.1 ++ t3.2.1 ++ t4.2.1
  if charset.length = 0 then
    (Except.error (String.toList "At least one character type must be enabled"), t4.2.2)
  else
    let minLength := max len required.length
    let d := drawN t4.2.2 charset (minLength - required.length)
    let s := secureShuffleArray (required ++ d.1) d.2
    (Except.ok s.1, s.2)

/-- Model of `generatePassword`: resolve the defaults of the destructuring
`const { length = 16, uppercase = true, ... } = options` and run the body.
A thrown `Error` is modelled as `Except.error` of its message. -/
def generatePassword (options : GenerateOptions) (r : Rng) :
    Except (List Char) (List Char) × Rng :=
  generateResolved (options.length.getD 16) (options.uppercase.getD true)
    (options.lowercase.getD true) (options.numbers.getD true)
    (options.symbols.getD true) (options.excludeAmbiguous.getD false) r

/-- Loop of `generateBatch`: generate `n` passwords sequentially, threading
the random source; a thrown error aborts the whole batch, as a JavaScript
exception would. -/
def batchLoop (options : GenerateOptions) :
    Nat → Rng → Except (List Char) (List (List Char)) × Rng
  | 0, r => (Except.ok [], r)
  | Nat.succ k, r =>
    match generatePassword options r with
    | (Except.ok p, r') =>
      match batchLoop options k r' with
      | (Except.ok ps, r'') => (Except.ok (p :: ps), r'')
      | e => e
    | (Except.error e, r') => (Except.error e, r')

/-- Model of `generateBatch`: `const maxCount = Math.min(count, 100)` then
the generation loop. -/
def generateBatch (count : Nat) (options : GenerateOptions) (r : Rng) :
    Except (List Char) (List (List Char)) × Rng :=
  batchLoop options (min count 100) r

/-- Number of enabled character classes after default resolution; this is
what `required.length` equals in `generatePassword`. -/
def enabledCount (options : GenerateOptions) : Nat :=
  (if options.uppercase.getD true then 1 else 0) +
  (if options.lowercase.getD true then 1 else 0) +
  (if options.numbers.getD true then 1 else 0) +
  (if options.symbols.getD true then 1 else 0)

/-- Strength levels of `StrengthResult.level`. -/
inductive Level where
  | very_weak
  | weak
  | fair
  | strong
  | very_strong
deriving DecidableEq

/-- Result record of `analyzeStrength` (`StrengthResult` in
`src/password.ts`); the `password` field holds the masked password. -/
structure StrengthResult where
  password : List Char
  score : Int
  level : Level
  feedback : List (List Char)
  entropy : ℝ
  crackTime : List Char

/-- Test `/[a-z]/.test(password)`. -/
def hasLowercaseChar (p : List Char) : Bool :=
  p.any (fun c => decide ('a' ≤ c) && decide (c ≤ 'z'))

/-- Test `/[A-Z]/.test(password)`. -/
def hasUppercaseChar (p : List Char) : Bool :=
  p.any (fun c => decide ('A' ≤ c) && decide (c ≤ 'Z'))

/-- Test `/\d/.test(password)` (`\d` is exactly `[0-9]`). -/
def hasDigitChar (p : List Char) : Bool :=
  p.any (fun c => decide ('0' ≤ c) && decide (c ≤ '9'))

/-- The 26-character class of the symbol detection regex
`[!@#$%^&*()_+\-=\[\]{}|;:,.<>?]`, the same set as `CHARS.symbols`. -/
def symbolClassChars : List Char := String.toList "!@#$%^&*()_+-=[]\x7b\x7d|;:,.<>?"

/-- Test of the symbol detection regex. -/
def hasSymbolChar (p : List Char) : Bool :=
  p.any (fun c => symbolClassChars.contains c)

/-- Characters matched by `.` in a JavaScript regex without the `s` flag:
everything except a line terminator. -/
def isDotChar (c : Char) : Bool :=
  !(c == '\n' || c == '\r' || c == '\u2028' || c == '\u2029')

/-- Test `/(.)\1{2,}/.test(password)`: some non-terminator character occurs
at least three times consecutively. -/
def hasTripleRepeat : List Char → Bool
  | a :: b :: c :: rest =>
    (isDotChar a && a == b && b == c) || hasTripleRepeat (b :: c :: rest)
  | _ => false

/-- Substring test: does `pat` occur contiguously inside the list? -/
def containsPat (pat : List Char) : List Char → Bool
  | [] => pat.isEmpty
  | c :: rest => pat.isPrefixOf (c :: rest) || containsPat pat rest

/-- The alternatives of the sequential-pattern regex. -/
def SEQ_PATTERNS : List (List Char) :=
  ["abc", "bcd", "cde", "def", "efg", "fgh", "ghi", "hij", "ijk", "jkl",
   "klm", "lmn", "mno", "nop", "opq", "pqr", "qrs", "rst", "stu", "tuv",
   "uvw", "vwx", "wxy", "xyz", "012", "123", "234", "345", "456", "567",
   "678", "789"].map String.toList

/-- Test of the sequential-pattern regex (case-insensitive, modelled by
ASCII case folding of the password). -/
def hasSequentialPattern (p : List Char) : Bool :=
  SEQ_PATTERNS.any (fun pat => containsPat pat (p.map Char.toLower))

/-- The alternatives of the keyboard-pattern regex. -/
def KEYBOARD_PATTERNS : List (List Char) :=
  ["qwert", "asdf", "zxcv"].map String.toList

/-- Test of `/(?:qwert|asdf|zxcv)/i`. -/
def hasKeyboardPattern (p : List Char) : Bool :=
  KEYBOARD_PATTERNS.any (fun pat => containsPat pat (p.map Char.toLower))

/-- Test `/^[a-zA-Z]+$/.test(password)`. -/
def isLettersOnly (p : List Char) : Bool :=
  !p.isEmpty && p.all (fun c =>
    (decide ('a' ≤ c) && decide (c ≤ 'z')) || (decide ('A' ≤ c) && decide (c ≤ 'Z')))

/-- Test `/^[0-9]+$/.test(password)`. -/
def isDigitsOnly (p : List Char) : Bool :=
  !p.isEmpty && p.all (fun c => decide ('0' ≤ c) && decide (c ≤ '9'))

/-- The `charsetSize` accumulation of `analyzeStrength` (lines 177-181). -/
def charsetSizeOf (p : List Char) : Nat :=
  (if hasLowercaseChar p then 26 else 0) +
  (if hasUppercaseChar p then 26 else 0) +
  (if hasDigitChar p then 10 else 0) +
  (if hasSymbolChar p then 32 else 0)

/-- The unrounded entropy of `analyzeStrength` (line 183):
`password.length * Math.log2(charsetSize || 1)`. -/
noncomputable def entropyOf (p : List Char) : ℝ :=
  (p.length : ℝ) * Real.logb 2 (if charsetSizeOf p = 0 then 1 else (charsetSizeOf p : ℝ))

/-- The average-case seconds of `estimateCrackTime`:
`Math.pow(2, entropy) / 10_000_000_000 / 2`. -/
noncomputable def crackSeconds (entropy : ℝ) : ℝ :=
  (2 : ℝ) ^ entropy / 10000000000 / 2

/-- Model of `estimateCrackTime`. -/
noncomputable def estimateCrackTime (entropy : ℝ) : List Char :=
  let seconds := crackSeconds entropy
  if seconds < 1 then String.toList "instant"
  else if seconds < 60 then
    String.toList (toString (round seconds)) ++ String.toList " seconds"
  else if seconds < 3600 then
    String.toList (toString (round (seconds / 60))) ++ String.toList " minutes"
  else if seconds < 86400 then
    String.toList (toString (round (seconds / 3600))) ++ String.toList " hours"
  else if seconds < 31536000 then
    String.toList (toString (round (seconds / 86400))) ++ String.toList " days"
  else if seconds < 31536000 * 100 then
    String.toList (toString (round (seconds / 31536000))) ++ String.toList " years"
  else if seconds < 31536000 * 1000000 then
    String.toList (toString (round (seconds / 31536000 / 1000))) ++ String.toList " thousand years"
  else if seconds < 31536000 * 1000000000 then
    String.toList (toString (round (seconds / 31536000 / 1000000))) ++ String.toList " million years"
  else String.toList "billions of years"

/-- Model of `analyzeStrength`.  The sequential score mutations and
`feedback.push` calls of the source are threaded as rebindings, in source
order; `if (cond) { feedback.push(m); score -= k; }` becomes one rebinding
of `feedback` and one of `score` under the same condition. -/
noncomputable def analyzeStrength (password : List Char) : StrengthResult :=
  let len := password.length
  let score : Int := 0
  let score := if 8 ≤ len then score + 1 else score
  let score := if 12 ≤ len then score + 1 else score
  let score := if 16 ≤ len then score + 1 else score
  let score := if 20 ≤ len then score + 1 else score
  let hasLower := hasLowercaseChar password
  let hasUpper := hasUppercaseChar password
  let hasNumber := hasDigitChar password
  let hasSymbol := hasSymbolChar password
  let score := if hasLower then score + 1 else score
  let score := if hasUpper then score + 1 else score
  let score := if hasNumber then score + 1 else score
  let score := if hasSymbol then score + 1 else score
  let feedback : List (List Char) := []
  let feedback := if len < 8 then
      feedback ++ [String.toList "Password is too short (minimum 8 characters)"]
    else feedback
  let score := if len < 8 then score - 2 else score
  let feedback := if !hasLower then feedback ++ [String.toList "Add lowercase letters"] else feedback
  let feedback := if !hasUpper then feedback ++ [String.toList "Add uppercase letters"] else feedback
  let feedback := if !hasNumber then feedback ++ [String.toList "Add numbers"] else feedback
  let feedback := if !hasSymbol then feedback ++ [String.toList "Add special characters"] else feedback
  let feedback := if hasTripleRepeat password then
      feedback ++ [String.toList "Avoid repeated characters"]
    else feedback
  let score := if hasTripleRepeat password then score - 1 else score
  let feedback := if isLettersOnly password then
      feedback ++ [String.toList "Mix in numbers and symbols"]
    else feedback
  let score := if isLettersOnly password then score - 1 else score
  let feedback := if isDigitsOnly password then
      feedback ++ [String.toList "Include letters and symbols"]
    else feedback
  let score := if isDigitsOnly password then score - 2 else score
  let feedback := if hasSequentialPattern password then
      feedback ++ [String.toList "Avoid sequential patterns"]
    else feedback
  let score := if hasSequentialPattern password then score - 1 else score
  let feedback := if hasKeyboardPattern password then
      feedback ++ [String.toList "Avoid keyboard patterns"]
    else feedback
  let score := if hasKeyboardPattern password then score - 1 else score
  let entropy := entropyOf password
  let score := max 0 (min 10 score)
  let level :=
    if score ≤ 2 then Level.very_weak
    else if score ≤ 4 then Level.weak
    else if score ≤ 6 then Level.fair
    else if score ≤ 8 then Level.strong
    else Level.very_strong
  let crackTime := estimateCrackTime entropy
  let feedback := if feedback.isEmpty then [String.toList "Password looks strong!"] else feedback
  { password := password.take 3 ++ List.replicate (len - 3) '*'
    score := score
    level := level
    feedback := feedback
    entropy := ((round (entropy * 100) : ℤ) : ℝ) / 100
    crackTime := crackTime }

/-- Request body values that can reach the `/strength` handler's `password`
field in `src/index.ts`. -/
inductive ReqValue where
  | str (s : List Char)
  | num (n : Int)
  | boolVal (b : Bool)
  | nullVal

/-- Model of the `POST /strength` handler of `src/index.ts`: the guard
`if (!password || typeof password !== 'string')` rejects a missing field,
`null`, any non-string value, and the empty string (which is falsy); then
passwords longer than 1000 characters are rejected; otherwise the core
analyzer runs. -/
noncomputable def strengthHandler (password : Option ReqValue) :
    Except (List Char) StrengthResult :=
  match password with
  | some (ReqValue.str s) =>
    if s.isEmpty then Except.error (String.toList "Password is required")
    else if 1000 < s.length then
      Except.error (String.toList "Password too long (max 1000 characters)")
    else Except.ok (analyzeStrength s)
  | _ => Except.error (String.toList "Password is required")

/-! Helper lemmas about the random primitives and the shuffle. -/

theorem secureRandomChar_mem (chars : List Char) (r : Rng) (h : chars ≠ []) :
    (secureRandomChar chars r).1 ∈ chars := by
  have hlen : 0 < chars.length := List.length_pos.mpr h
  have hmod : r.g r.i % chars.length < chars.length := Nat.mod_lt _ hlen
  simp only [secureRandomChar, randomInt]
  rw [List.getD_eq_getElem chars 'A' hmod]
  exact List.getElem_mem hmod

theorem drawN_length (r : Rng) (chars : List Char) (n : Nat) :
    (drawN r chars n).1.length = n := by
  induction n generalizing r with
  | zero => rfl
  | succ k ih => simp [drawN, ih]

theorem drawN_mem (r : Rng) (chars : List Char) (n : Nat) (h : chars ≠ []) :
    ∀ c ∈ (drawN r chars n).1, c ∈ chars := by
  induction n generalizing r with
  | zero => intro c hc; simp [drawN] at hc
  | succ k ih =>
    intro c hc
    simp only [drawN, List.mem_cons] at hc
    rcases hc with hc | hc
    · exact hc ▸ secureRandomChar_mem chars r h
    · exact ih _ c hc

theorem cons_get_set_perm {α : Type} :
    ∀ (t : List α) (m : Nat) (hm : m < t.length) (a : α),
      List.Perm (t.get ⟨m, hm⟩ :: t.set m a) (a :: t)
  | b :: t', 0, _, a => by
    simpa using List.Perm.swap a b t'
  | b :: t', Nat.succ k, hm, a => by
    have hk : k < t'.length := Nat.succ_lt_succ_iff.mp (by simpa using hm)
    have ih := cons_get_set_perm t' k hk a
    have h0 : (b :: t').get ⟨k + 1, hm⟩ :: (b :: t').set (k + 1) a
        = t'.get ⟨k, hk⟩ :: b :: t'.set k a := by simp
    rw [h0]
    have h1 : List.Perm (t'.get ⟨k, hk⟩ :: b :: t'.set k a)
        (b :: t'.get ⟨k, hk⟩ :: t'.set k a) := List.Perm.swap b _ _
    have h2 : List.Perm (b :: t'.get ⟨k, hk⟩ :: t'.set k a) (b :: a :: t') := ih.cons b
    have h3 : List.Perm (b :: a :: t') (a :: b :: t') := List.Perm.swap a b t'
    exact (h1.trans h2).trans h3

theorem get_set_get_set_perm {α : Type} :
    ∀ (l : List α) (i j : Nat) (hi : i < l.length) (hj : j < l.length),
      List.Perm ((l.set i (l.get ⟨j, hj⟩)).set j (l.get ⟨i, hi⟩)) l
  | a :: t, 0, 0, _, _ => by simp
  | a :: t, 0, Nat.succ m, hi, hj => by
    have hm : m < t.length := Nat.succ_lt_succ_iff.mp (by simpa using hj)
    simpa using cons_get_set_perm t m hm a
  | a :: t, Nat.succ k, 0, hi, hj => by
    have hk : k < t.length := Nat.succ_lt_succ_iff.mp (by simpa using hi)
    simpa using cons_get_set_perm t k hk a
  | a :: t, Nat.succ k, Nat.succ m, hi, hj => by
    have hk : k < t.length := Nat.succ_lt_succ_iff.mp (by simpa using hi)
    have hm : m < t.length := Nat.succ_lt_succ_iff.mp (by simpa using hj)
    simpa using (get_set_get_set_perm t k m hk hm).cons a

theorem listSwap_perm {α : Type} (l : List α) (i j : Nat) :
    List.Perm (listSwap l i j) l := by
  unfold listSwap
  rcases h1 : l[i]? with _ | a
  · simp
  rcases h2 : l[j]? with _ | b
  · simp
  obtain ⟨hi, ha⟩ := List.getElem?_eq_some.mp h1
  obtain ⟨hj, hb⟩ := List.getElem?_eq_some.mp h2
  have ha' : a = l.get ⟨i, hi⟩ := by simp [← ha]
  have hb' : b = l.get ⟨j, hj⟩ := by simp [← hb]
  subst ha' hb'
  exact get_set_get_set_perm l i j hi hj

theorem fisherYates_perm {α : Type} :
    ∀ (n : Nat) (l : List α) (r : Rng), List.Perm (fisherYates n l r).1 l
  | 0, _, _ => List.Perm.refl _
  | Nat.succ k, l, r => by
    simp only [fisherYates]
    exact (fisherYates_perm k _ _).trans (listSwap_perm l (k + 1) _)

theorem secureShuffleArray_perm {α : Type} (l : List α) (r : Rng) :
    List.Perm (secureShuffleArray l r).1 l :=
  fisherYates_perm _ l r

/-! Helper lemmas about the per-class blocks of `generatePassword`. -/

theorem pickClass_charset (e : Bool) (c : List Char) (r : Rng) :
    (pickClass e c r).1 = if e then c else [] := by
  cases e <;> simp [pickClass]

theorem pickClass_required (e : Bool) (c : List Char) (r : Rng) :
    (pickClass e c r).2.1 = if e then [(secureRandomChar c r).1] else [] := by
  cases e <;> simp [pickClass]

theorem effUppercase_ne_nil (e : Bool) : effUppercase e ≠ [] := by
  cases e <;> decide

theorem effLowercase_ne_nil (e : Bool) : effLowercase e ≠ [] := by
  cases e <;> decide

theorem effNumbers_ne_nil (e : Bool) : effNumbers e ≠ [] := by
  cases e <;> decide

theorem CHARS_symbols_ne_nil : CHARS_symbols ≠ [] := by decide

/-- Main characterization of a successful `generatePassword` run: some
enabled class means no error, the output length is
`max(requested length, enabled classes)`, and every enabled class is
represented by at least one character of its effective charset. -/
theorem generateResolved_spec (len : Nat) (u lo nu sy ex : Bool) (r : Rng)
    (h : u = true ∨ lo = true ∨ nu = true ∨ sy = true) :
    ∃ pwd, (generateResolved len u lo nu sy ex r).1 = Except.ok pwd ∧
      pwd.length = max len
        ((if u then 1 else 0) + (if lo then 1 else 0) +
         (if nu then 1 else 0) + (if sy then 1 else 0)) ∧
      (u = true → ∃ c ∈ pwd, c ∈ effUppercase ex) ∧
      (lo = true → ∃ c ∈ pwd, c ∈ effLowercase ex) ∧
      (nu = true → ∃ c ∈ pwd, c ∈ effNumbers ex) ∧
      (sy = true → ∃ c ∈ pwd, c ∈ CHARS_symbols) := by
  simp only [generateResolved]
  set t1 := pickClass u (effUppercase ex) r with ht1
  set t2 := pickClass lo (effLowercase ex) t1.2.2 with ht2
  set t3 := pickClass nu (effNumbers ex) t2.2.2 with ht3
  set t4 := pickClass sy CHARS_symbols t3.2.2 with ht4
  have hc1 : t1.1 = if u then effUppercase ex else [] := by rw [ht1, pickClass_charset]
  have hc2 : t2.1 = if lo then effLowercase ex else [] := by rw [ht2, pickClass_charset]
  have hc3 : t3.1 = if nu then effNumbers ex else [] := by rw [ht3, pickClass_charset]
  have hc4 : t4.1 = if sy then CHARS_symbols else [] := by rw [ht4, pickClass_charset]
  have hq1 : t1.2.1 = if u then [(secureRandomChar (effUppercase ex) r).1] else [] := by
    rw [ht1, pickClass_required]
  have hq2 : t2.2.1 = if lo then [(secureRandomChar (effLowercase ex) t1.2.2).1] else [] := by
    rw [ht2, pickClass_required]
  have hq3 : t3.2.1 = if nu then [(secureRandomChar (effNumbers ex) t2.2.2).1] else [] := by
    rw [ht3, pickClass_required]
  have hq4 : t4.2.1 = if sy then [(secureRandomChar CHARS_symbols t3.2.2).1] else [] := by
    rw [ht4, pickClass_required]
  have hne : ¬ (t1.1 ++ t2.1 ++ t3.1 ++ t4.1).length = 0 := by
    have p1 := List.length_pos.mpr (effUppercase_ne_nil ex)
    have p2 := List.length_pos.mpr (effLowercase_ne_nil ex)
    have p3 := List.length_pos.mpr (effNumbers_ne_nil ex)
    have p4 := List.length_pos.mpr CHARS_symbols_ne_nil
    simp only [List.length_append, hc1, hc2, hc3, hc4]
    cases u <;> cases lo <;> cases nu <;> cases sy <;>
      simp only [if_true, if_false, Bool.false_eq_true, or_self, or_false, false_or,
        List.length_nil] at h ⊢ <;>
      omega
  rw [if_neg hne]
  refine ⟨_, rfl, ?_, ?_, ?_, ?_, ?_⟩
  · rw [(secureShuffleArray_perm _ _).length_eq, List.length_append, drawN_length]
    have hle := le_max_right len (t1.2.1 ++ t2.2.1 ++ t3.2.1 ++ t4.2.1).length
    have hreq : (t1.2.1 ++ t2.2.1 ++ t3.2.1 ++ t4.2.1).length =
        (if u then 1 else 0) + (if lo then 1 else 0) +
        (if nu then 1 else 0) + (if sy then 1 else 0) := by
      simp only [List.length_append, hq1, hq2, hq3, hq4, apply_ite List.length]
      simp
    rw [← hreq]
    omega
  · intro hu
    refine ⟨(secureRandomChar (effUppercase ex) r).1, ?_,
      secureRandomChar_mem _ _ (effUppercase_ne_nil ex)⟩
    rw [(secureShuffleArray_perm _ _).mem_iff]
    apply List.mem_append_left
    simp [hq1, hq2, hq3, hq4, hu]
  · intro hlo
    refine ⟨(secureRandomChar (effLowercase ex) t1.2.2).1, ?_,
      secureRandomChar_mem _ _ (effLowercase_ne_nil ex)⟩
    rw [(secureShuffleArray_perm _ _).mem_iff]
    apply List.mem_append_left
    simp [hq1, hq2, hq3, hq4, hlo]
  · intro hnu
    refine ⟨(secureRandomChar (effNumbers ex) t2.2.2).1, ?_,
      secureRandomChar_mem _ _ (effNumbers_ne_nil ex)⟩
    rw [(secureShuffleArray_perm _ _).mem_iff]
    apply List.mem_append_left
    simp [hq1, hq2, hq3, hq4, hnu]
  · intro hsy
    refine ⟨(secureRandomChar CHARS_symbols t3.2.2).1, ?_,
      secureRandomChar_mem _ _ CHARS_symbols_ne_nil⟩
    rw [(secureShuffleArray_perm _ _).mem_iff]
    apply List.mem_append_left
    simp [hq1, hq2, hq3, hq4, hsy]

theorem mem_of_mem_ite_nil {c : Char} {l : List Char} {b : Bool}
    (h : c ∈ if b then l else []) : c ∈ l := by
  cases b <;> simp_all

theorem mem_ite_singleton {c x : Char} {b : Bool}
    (h : c ∈ if b then [x] else []) : c = x := by
  cases b <;> simp_all

/-- Every character of a successfully generated password comes from one of
the four effective charsets. -/
theorem generateResolved_mem (len : Nat) (u lo nu sy ex : Bool) (r : Rng) (pwd : List Char)
    (hok : (generateResolved len u lo nu sy ex r).1 = Except.ok pwd) :
    ∀ c ∈ pwd,
      c ∈ effUppercase ex ∨ c ∈ effLowercase ex ∨ c ∈ effNumbers ex ∨ c ∈ CHARS_symbols := by
  simp only [generateResolved] at hok
  set t1 := pickClass u (effUppercase ex) r with ht1
  set t2 := pickClass lo (effLowercase ex) t1.2.2 with ht2
  set t3 := pickClass nu (effNumbers ex) t2.2.2 with ht3
  set t4 := pickClass sy CHARS_symbols t3.2.2 with ht4
  by_cases hne : (t1.1 ++ t2.1 ++ t3.1 ++ t4.1).length = 0
  · rw [if_pos hne] at hok
    exact absurd hok (by simp)
  · rw [if_neg hne] at hok
    have hpwd : pwd = (secureShuffleArray
        (t1.2.1 ++ t2.2.1 ++ t3.2.1 ++ t4.2.1 ++
          (drawN t4.2.2 (t1.1 ++ t2.1 ++ t3.1 ++ t4.1)
            (max len (t1.2.1 ++ t2.2.1 ++ t3.2.1 ++ t4.2.1).length -
              (t1.2.1 ++ t2.2.1 ++ t3.2.1 ++ t4.2.1).length)).1)
        (drawN t4.2.2 (t1.1 ++ t2.1 ++ t3.1 ++ t4.1)
            (max len (t1.2.1 ++ t2.2.1 ++ t3.2.1 ++ t4.2.1).length -
              (t1.2.1 ++ t2.2.1 ++ t3.2.1 ++ t4.2.1).length)).2).1 := by
      exact (Except.ok.injEq _ _).mp hok.symm
    have hchars : ∀ c, c ∈ t1.1 ++ t2.1 ++ t3.1 ++ t4.1 →
        c ∈ effUppercase ex ∨ c ∈ effLowercase ex ∨ c ∈ effNumbers ex ∨ c ∈ CHARS_symbols := by
      intro c hc
      rw [ht1, ht2, ht3, ht4] at hc
      simp only [pickClass_charset, List.mem_append] at hc
      rcases hc with ((hc | hc) | hc) | hc
      · exact Or.inl (mem_of_mem_ite_nil hc)
      · exact Or.inr (Or.inl (mem_of_mem_ite_nil hc))
      · exact Or.inr (Or.inr (Or.inl (mem_of_mem_ite_nil hc)))
      · exact Or.inr (Or.inr (Or.inr (mem_of_mem_ite_nil hc)))
    intro c hc
    rw [hpwd, (secureShuffleArray_perm _ _).mem_iff] at hc
    rcases List.mem_append.mp hc with hreq | hdrawn
    · rw [ht1, ht2, ht3, ht4] at hreq
      simp only [pickClass_required, List.mem_append] at hreq
      rcases hreq with ((hq | hq) | hq) | hq
      · rw [mem_ite_singleton hq]
        exact Or.inl (secureRandomChar_mem _ _ (effUppercase_ne_nil ex))
      · rw [mem_ite_singleton hq]
        exact Or.inr (Or.inl (secureRandomChar_mem _ _ (effLowercase_ne_nil ex)))
      · rw [mem_ite_singleton hq]
        exact Or.inr (Or.inr (Or.inl (secureRandomChar_mem _ _ (effNumbers_ne_nil ex))))
      · rw [mem_ite_singleton hq]
        exact Or.inr (Or.inr (Or.inr (secureRandomChar_mem _ _ CHARS_symbols_ne_nil)))
    · have hnil : t1.1 ++ t2.1 ++ t3.1 ++ t4.1 ≠ [] := by
        intro hz; exact hne (by rw [hz]; rfl)
      exact hchars c (drawN_mem _ _ _ hnil c hdrawn)

/-- With every class disabled, the combined charset is empty and the
generator throws its validation error. -/
theorem generateResolved_all_false (len : Nat) (ex : Bool) (r : Rng) :
    (generateResolved len false false false false ex r).1 =
      Except.error (String.toList "At least one character type must be enabled") := by
  simp [generateResolved, pickClass]

/-- A successful generator call for every stream, provided some class is
enabled; packaged form used by the batch loop. -/
theorem generatePassword_isOk (options : GenerateOptions) (r : Rng)
    (h : options.uppercase.getD true = true ∨ options.lowercase.getD true = true ∨
      options.numbers.getD true = true ∨ options.symbols.getD true = true) :
    ∃ pwd, (generatePassword options r).1 = Except.ok pwd := by
  obtain ⟨pwd, hok, -⟩ := generateResolved_spec (options.length.getD 16)
    (options.uppercase.getD true) (options.lowercase.getD true)
    (options.numbers.getD true) (options.symbols.getD true)
    (options.excludeAmbiguous.getD false) r h
  exact ⟨pwd, hok⟩

/-- The batch loop returns exactly `n` passwords when the generator cannot
fail. -/
theorem batchLoop_length (options : GenerateOptions)
    (h : options.uppercase.getD true = true ∨ options.lowercase.getD true = true ∨
      options.numbers.getD true = true ∨ options.symbols.getD true = true) :
    ∀ (n : Nat) (r : Rng), ∃ ps, (batchLoop options n r).1 = Except.ok ps ∧ ps.length = n := by
  intro n
  induction n with
  | zero => intro r; exact ⟨[], rfl, rfl⟩
  | succ k ih =>
    intro r
    obtain ⟨pwd, hok⟩ := generatePassword_isOk options r h
    obtain ⟨g1, r1, hg⟩ : ∃ a b, generatePassword options r = (a, b) := ⟨_, _, rfl⟩
    rw [hg] at hok
    simp only at hok
    obtain ⟨ps, hps, hlen⟩ := ih r1
    obtain ⟨b1, r2, hb⟩ : ∃ a b, batchLoop options k r1 = (a, b) := ⟨_, _, rfl⟩
    rw [hb] at hps
    simp only at hps
    refine ⟨pwd :: ps, ?_, by simp [hlen]⟩
    simp only [batchLoop, hg, hok, hb, hps]

/-- A concrete random stream used to instantiate the universally
quantified theorems. -/
def rngZero : Rng := ⟨fun _ => 0, 0⟩

/-- Options with every class flag disabled. -/
def optsAllFalse : GenerateOptions :=
  { uppercase := some false, lowercase := some false,
    numbers := some false, symbols := some false }

/-- Options asking for the ambiguous glyphs to be excluded. -/
def optsExcl : GenerateOptions := { excludeAmbiguous := some true }

/-- The concrete password generated from `optsExcl` with stream `rngZero`. -/
def pwdExcl : List Char :=
  match (generatePassword optsExcl rngZero).1 with
  | Except.ok p => p
  | Except.error _ => []

/-- C1: for every valid `GenerateOptions` (defaults resolved, at least one
of the four class flags true) and every random stream, `generatePassword`
returns a string whose length equals max(requested length, number of
enabled classes) and which contains at least one character from each
enabled class's effective charset. -/
theorem generatePassword_length_and_coverage (options : GenerateOptions) (r : Rng)
    (h : options.uppercase.getD true = true ∨ options.lowercase.getD true = true ∨
      options.numbers.getD true = true ∨ options.symbols.getD true = true) :
    ∃ pwd, (generatePassword options r).1 = Except.ok pwd ∧
      pwd.length = max (options.length.getD 16) (enabledCount options) ∧
      (options.uppercase.getD true = true →
        ∃ c ∈ pwd, c ∈ effUppercase (options.excludeAmbiguous.getD false)) ∧
      (options.lowercase.getD true = true →
        ∃ c ∈ pwd, c ∈ effLowercase (options.excludeAmbiguous.getD false)) ∧
      (options.numbers.getD true = true →
        ∃ c ∈ pwd, c ∈ effNumbers (options.excludeAmbiguous.getD false)) ∧
      (options.symbols.getD true = true → ∃ c ∈ pwd, c ∈ CHARS_symbols) :=
  generateResolved_spec (options.length.getD 16) (options.uppercase.getD true)
    (options.lowercase.getD true) (options.numbers.getD true)
    (options.symbols.getD true) (options.excludeAmbiguous.getD false) r h

/-- Witness for C1 at the all-default options and the `rngZero` stream. -/
theorem generatePassword_length_and_coverage_witness :
    ∃ pwd, (generatePassword {} rngZero).1 = Except.ok pwd ∧ pwd.length = 16 ∧
      (∃ c ∈ pwd, c ∈ effUppercase false) ∧ (∃ c ∈ pwd, c ∈ effLowercase false) ∧
      (∃ c ∈ pwd, c ∈ effNumbers false) ∧ (∃ c ∈ pwd, c ∈ CHARS_symbols) := by
  obtain ⟨pwd, h1, h2, h3, h4, h5, h6⟩ :=
    generatePassword_length_and_coverage {} rngZero (Or.inl rfl)
  exact ⟨pwd, h1, by simpa [enabledCount] using h2, h3 rfl, h4 rfl, h5 rfl, h6 rfl⟩

/-- C2: with all four class flags false, `generatePassword` fails with the
validation error and produces no password. -/
theorem generatePassword_no_class_error (options : GenerateOptions) (r : Rng)
    (h1 : options.uppercase.getD true = false) (h2 : options.lowercase.getD true = false)
    (h3 : options.numbers.getD true = false) (h4 : options.symbols.getD true = false) :
    (generatePassword options r).1 =
      Except.error (String.toList "At least one character type must be enabled") := by
  unfold generatePassword
  rw [h1, h2, h3, h4]
  exact generateResolved_all_false _ _ _

/-- Witness for C2 at concrete all-false options. -/
theorem generatePassword_no_class_error_witness :
    (generatePassword optsAllFalse rngZero).1 =
      Except.error (String.toList "At least one character type must be enabled") :=
  generatePassword_no_class_error optsAllFalse rngZero rfl rfl rfl rfl

/-- C5: with `excludeAmbiguous = true`, a successfully generated password
never contains `I`, `O`, `l`, `0` or `1`. -/
theorem generatePassword_excludes_ambiguous (options : GenerateOptions) (r : Rng)
    (pwd : List Char) (hex : options.excludeAmbiguous.getD false = true)
    (hok : (generatePassword options r).1 = Except.ok pwd) :
    'I' ∉ pwd ∧ 'O' ∉ pwd ∧ 'l' ∉ pwd ∧ '0' ∉ pwd ∧ '1' ∉ pwd := by
  have hmem := generateResolved_mem (options.length.getD 16) (options.uppercase.getD true)
    (options.lowercase.getD true) (options.numbers.getD true) (options.symbols.getD true)
    (options.excludeAmbiguous.getD false) r pwd hok
  rw [hex] at hmem
  refine ⟨?_, ?_, ?_, ?_, ?_⟩ <;> intro hc <;> have hin := hmem _ hc <;>
    revert hin <;> decide

/-- Witness for C5: the concrete generated password `pwdExcl`. -/
theorem generatePassword_excludes_ambiguous_witness :
    'I' ∉ pwdExcl ∧ 'O' ∉ pwdExcl ∧ 'l' ∉ pwdExcl ∧ '0' ∉ pwdExcl ∧ '1' ∉ pwdExcl :=
  generatePassword_excludes_ambiguous optsExcl rngZero pwdExcl rfl (by rfl)

/-- C4 (amended): for options with at least one enabled class,
`generateBatch` silently clamps the count to 100 and returns exactly
`min count 100` passwords for every random stream. -/
theorem generateBatch_clamped_length (count : Nat) (options : GenerateOptions) (r : Rng)
    (h : options.uppercase.getD true = true ∨ options.lowercase.getD true = true ∨
      options.numbers.getD true = true ∨ options.symbols.getD true = true) :
    ∃ ps, (generateBatch count options r).1 = Except.ok ps ∧ ps.length = min count 100 :=
  batchLoop_length options h (min count 100) r

/-- Witness for C4: `generateBatch 150` at the default options returns
exactly 100 passwords. -/
theorem generateBatch_clamped_length_witness :
    ∃ ps, (generateBatch 150 {} rngZero).1 = Except.ok ps ∧ ps.length = 100 := by
  obtain ⟨ps, hps, hlen⟩ := generateBatch_clamped_length 150 {} rngZero (Or.inl rfl)
  exact ⟨ps, hps, by simpa using hlen⟩

/-- Counterexample to C4 as frozen: at `count = 1` and options with every
class disabled, `generateBatch` propagates the generator's validation
error instead of returning `min 1 100 = 1` passwords. -/
theorem generateBatch_invalid_options_error :
    (generateBatch 1 optsAllFalse rngZero).1 =
      Except.error (String.toList "At least one character type must be enabled") := by
  rfl

/-! Helper lemmas about the analyzer's result fields. -/

theorem analyzeStrength_password_eq (p : List Char) :
    (analyzeStrength p).password = p.take 3 ++ List.replicate (p.length - 3) '*' := rfl

theorem analyzeStrength_entropy_eq (p : List Char) :
    (analyzeStrength p).entropy = ((round (entropyOf p * 100) : ℤ) : ℝ) / 100 := rfl

theorem analyzeStrength_crackTime_eq (p : List Char) :
    (analyzeStrength p).crackTime = estimateCrackTime (entropyOf p) := rfl

theorem entropyOf_nonneg (p : List Char) : 0 ≤ entropyOf p := by
  unfold entropyOf
  apply mul_nonneg (Nat.cast_nonneg _)
  apply Real.logb_nonneg one_lt_two
  split
  · norm_num
  · have h1 : 1 ≤ charsetSizeOf p := Nat.one_le_iff_ne_zero.mpr (by assumption)
    exact_mod_cast h1

theorem entropyOf_nil : entropyOf [] = 0 := by
  simp [entropyOf]

theorem estimateCrackTime_instant (e : ℝ) (h : crackSeconds e < 1) :
    estimateCrackTime e = String.toList "instant" := by
  unfold estimateCrackTime
  rw [if_pos h]

theorem crackSeconds_zero_lt_one : crackSeconds 0 < 1 := by
  unfold crackSeconds
  rw [Real.rpow_zero]
  norm_num

/-- C6: the masked `password` field keeps the first three characters and
replaces each remaining character by `*`; a password of length at most 3
is returned unchanged. -/
theorem analyzeStrength_mask (p : List Char) :
    (analyzeStrength p).password = p.take 3 ++ List.replicate (p.length - 3) '*' ∧
    (p.length ≤ 3 → (analyzeStrength p).password = p) := by
  refine ⟨rfl, fun h => ?_⟩
  rw [analyzeStrength_password_eq, List.take_of_length_le h, Nat.sub_eq_zero_of_le h]
  simp

/-- Witness for C6: `analyze("abcdef")` masks to `"abc***"`, and the short
password `"ab"` is returned unchanged. -/
theorem analyzeStrength_mask_witness :
    (analyzeStrength (String.toList "abcdef")).password = String.toList "abc***" ∧
    (analyzeStrength (String.toList "ab")).password = String.toList "ab" :=
  ⟨(analyzeStrength_mask (String.toList "abcdef")).1.trans (by decide),
   (analyzeStrength_mask (String.toList "ab")).2 (by decide)⟩

/-- C9: the analyzer is a pure function of the password string — its
embedding takes no random stream at all — so two calls on equal inputs
agree on every observable field. -/
theorem analyzeStrength_deterministic (p q : List Char) (h : p = q) :
    (analyzeStrength p).score = (analyzeStrength q).score ∧
    (analyzeStrength p).level = (analyzeStrength q).level ∧
    (analyzeStrength p).feedback = (analyzeStrength q).feedback ∧
    (analyzeStrength p).entropy = (analyzeStrength q).entropy ∧
    (analyzeStrength p).crackTime = (analyzeStrength q).crackTime := by
  subst h
  exact ⟨rfl, rfl, rfl, rfl, rfl⟩

/-- Witness for C9 at two identical concrete calls. -/
theorem analyzeStrength_deterministic_witness :
    (analyzeStrength (String.toList "abc")).score = (analyzeStrength (String.toList "abc")).score ∧
    (analyzeStrength (String.toList "abc")).level = (analyzeStrength (String.toList "abc")).level ∧
    (analyzeStrength (String.toList "abc")).feedback =
      (analyzeStrength (String.toList "abc")).feedback ∧
    (analyzeStrength (String.toList "abc")).entropy =
      (analyzeStrength (String.toList "abc")).entropy ∧
    (analyzeStrength (String.toList "abc")).crackTime =
      (analyzeStrength (String.toList "abc")).crackTime :=
  analyzeStrength_deterministic (String.toList "abc") (String.toList "abc") rfl

/-- C10: the analyzer is total (its embedding is a plain function), the
clamped score lies in `[0, 10]`, the reported entropy is nonnegative, and
the feedback list is never empty. -/
theorem analyzeStrength_invariants (p : List Char) :
    0 ≤ (analyzeStrength p).score ∧ (analyzeStrength p).score ≤ 10 ∧
    0 ≤ (analyzeStrength p).entropy ∧ (analyzeStrength p).feedback ≠ [] := by
  refine ⟨le_max_left 0 _, max_le (by norm_num) (min_le_left _ _), ?_, ?_⟩
  · rw [analyzeStrength_entropy_eq]
    apply div_nonneg _ (by norm_num)
    have h0 : (0 : ℝ) ≤ entropyOf p * 100 := by
      have := entropyOf_nonneg p
      nlinarith
    have h1 : (0 : ℤ) ≤ round (entropyOf p * 100) := by
      rw [round_eq]
      exact Int.le_floor.mpr (by push_cast; linarith)
    exact_mod_cast h1
  · have key : ∀ (fb : List (List Char)) (m : List Char),
        (if fb.isEmpty then [m] else fb) ≠ [] := by
      intro fb m
      split
      · simp
      · next hfb =>
        intro hnil
        rw [hnil] at hfb
        exact hfb rfl
    exact key _ _

/-- Counterexample to C3 as frozen: the core `analyzeStrength` does not
signal a validation error on the empty string — it returns an ordinary
`StrengthResult` (score 0, level `very_weak`, nonempty feedback, crack
time `"instant"`).  The rejection happens only in the HTTP handler. -/
theorem analyzeStrength_empty_returns_result :
    (analyzeStrength []).score = 0 ∧ (analyzeStrength []).level = Level.very_weak ∧
    (analyzeStrength []).feedback ≠ [] ∧
    (analyzeStrength []).crackTime = String.toList "instant" := by
  refine ⟨rfl, rfl, ?_, ?_⟩
  · intro h
    exact absurd (congrArg List.length h) (by decide)
  · rw [analyzeStrength_crackTime_eq, entropyOf_nil]
    exact estimateCrackTime_instant 0 crackSeconds_zero_lt_one

/-- C3 (amended): a missing, empty-string, or non-string `password` field
is rejected with the validation error `"Password is required"` by the
`POST /strength` handler — the caller of the core — and no
`StrengthResult` is produced for such a request. -/
theorem strengthHandler_rejects (body : Option ReqValue)
    (h : body = some (ReqValue.str []) ∨ body = none ∨
      ∀ s, body ≠ some (ReqValue.str s)) :
    strengthHandler body = Except.error (String.toList "Password is required") := by
  rcases h with h | h | h
  · subst h; rfl
  · subst h; rfl
  · match body, h with
    | some (ReqValue.str s), h => exact absurd rfl (h s)
    | some (ReqValue.num n), _ => rfl
    | some (ReqValue.boolVal b), _ => rfl
    | some ReqValue.nullVal, _ => rfl
    | none, _ => rfl

/-- Witness for C3 (amended) at an empty string, a missing field, and a
numeric (non-string) field. -/
theorem strengthHandler_rejects_witness :
    strengthHandler (some (ReqValue.str [])) =
      Except.error (String.toList "Password is required") ∧
    strengthHandler none = Except.error (String.toList "Password is required") ∧
    strengthHandler (some (ReqValue.num 5)) =
      Except.error (String.toList "Password is required") :=
  ⟨strengthHandler_rejects _ (Or.inl rfl),
   strengthHandler_rejects _ (Or.inr (Or.inl rfl)),
   strengthHandler_rejects _
     (Or.inr (Or.inr (fun _ h => ReqValue.noConfusion (Option.some.inj h))))⟩

/-! Bridges between `Real.logb` on naturals and decidable power
comparisons, used to evaluate the rounded entropy at concrete inputs. -/

theorem le_logb_iff_pow_le {b x : ℕ} (hb : 1 < b) (hx : 0 < x) (p q : ℕ) (hq : 0 < q) :
    (p : ℝ) / q ≤ Real.logb b x ↔ b ^ p ≤ x ^ q := by
  have hb' : (1:ℝ) < b := by exact_mod_cast hb
  have hq' : (0:ℝ) < q := by exact_mod_cast hq
  have hx' : (0:ℝ) < (x:ℝ) := by exact_mod_cast hx
  rw [div_le_iff₀ hq', mul_comm, ← Real.logb_pow,
    Real.le_logb_iff_rpow_le hb' (by positivity), Real.rpow_natCast]
  constructor
  · intro h2; exact_mod_cast h2
  · intro h2; exact_mod_cast h2

theorem logb_le_iff_pow_le {b x : ℕ} (hb : 1 < b) (hx : 0 < x) (p q : ℕ) (hq : 0 < q) :
    Real.logb b x ≤ (p : ℝ) / q ↔ x ^ q ≤ b ^ p := by
  have hb' : (1:ℝ) < b := by exact_mod_cast hb
  have hq' : (0:ℝ) < q := by exact_mod_cast hq
  have hx' : (0:ℝ) < (x:ℝ) := by exact_mod_cast hx
  rw [le_div_iff₀ hq', mul_comm, ← Real.logb_pow,
    Real.logb_le_iff_le_rpow hb' (by positivity), Real.rpow_natCast]
  constructor
  · intro h2; exact_mod_cast h2
  · intro h2; exact_mod_cast h2

theorem logb_lt_iff_pow_lt {b x : ℕ} (hb : 1 < b) (hx : 0 < x) (p q : ℕ) (hq : 0 < q) :
    Real.logb b x < (p : ℝ) / q ↔ x ^ q < b ^ p := by
  have hb' : (1:ℝ) < b := by exact_mod_cast hb
  have hq' : (0:ℝ) < q := by exact_mod_cast hq
  have hx' : (0:ℝ) < (x:ℝ) := by exact_mod_cast hx
  rw [lt_div_iff₀ hq', mul_comm, ← Real.logb_pow,
    Real.logb_lt_iff_lt_rpow hb' (by positivity), Real.rpow_natCast]
  constructor
  · intro h2; exact_mod_cast h2
  · intro h2; exact_mod_cast h2

theorem logb_two_ten_lb : (73:ℝ)/22 ≤ Real.logb 2 10 := by
  have h := (le_logb_iff_pow_le (b := 2) (x := 10) (by norm_num) (by norm_num) 73 22
    (by norm_num)).mpr (by decide)
  exact_mod_cast h

theorem logb_two_ten_ub : Real.logb 2 10 < (113:ℝ)/34 := by
  have h := (logb_lt_iff_pow_lt (b := 2) (x := 10) (by norm_num) (by norm_num) 113 34
    (by norm_num)).mpr (by decide)
  exact_mod_cast h

/-- C7 (amended): the entropy field is the exact formula rounded to two
decimal places — `round(100 * length * log2 S) / 100` — and `0` when the
effective alphabet size `S` is zero. -/
theorem analyzeStrength_entropy_rounded (p : List Char) :
    (analyzeStrength p).entropy =
      if charsetSizeOf p = 0 then 0
      else ((round ((100:ℝ) * ((p.length : ℝ) * Real.logb 2 (charsetSizeOf p))) : ℤ) : ℝ) / 100 := by
  rw [analyzeStrength_entropy_eq]
  unfold entropyOf
  by_cases h : charsetSizeOf p = 0
  · rw [if_pos h, if_pos h]
    simp
  · rw [if_neg h, if_neg h]
    rw [mul_comm ((p.length : ℝ) * Real.logb 2 (charsetSizeOf p)) (100:ℝ)]

/-- Counterexample to C7 as frozen: at the single-digit password `"5"`
(alphabet size 10) the returned entropy is the rounded value `3.32`, which
differs from the exact `1 * log2(10) = 3.3219...`. -/
theorem analyzeStrength_entropy_rounding_counterexample :
    (analyzeStrength (String.toList "5")).entropy ≠
      ((String.toList "5").length : ℝ) *
        Real.logb 2 (charsetSizeOf (String.toList "5")) := by
  have hcs : charsetSizeOf (String.toList "5") = 10 := by decide
  have hlen : (String.toList "5").length = 1 := rfl
  have hlb := logb_two_ten_lb
  have hub := logb_two_ten_ub
  have hent : entropyOf (String.toList "5") = Real.logb 2 10 := by
    unfold entropyOf
    rw [hcs, hlen]
    norm_num
  have hround : round (Real.logb 2 10 * 100) = 332 := by
    rw [round_eq, Int.floor_eq_iff]
    constructor
    · push_cast
      nlinarith
    · push_cast
      nlinarith
  rw [analyzeStrength_entropy_eq, hent, hround, hcs, hlen]
  intro heq
  have hlog : Real.logb 2 10 = (83:ℝ)/25 := by
    push_cast at heq
    linarith
  have hle : Real.logb 2 10 ≤ (83:ℝ)/25 := le_of_eq hlog
  have hpow := (logb_le_iff_pow_le (b := 2) (x := 10) (by norm_num) (by norm_num) 83 25
    (by norm_num)).mp (by exact_mod_cast hle)
  exact absurd hpow (by decide)

/-- C8: the crack time of `analyze(p)` is `estimateCrackTime` applied to
the unrounded entropy, where average-case seconds are
`2^entropy / 10^10 / 2` and the buckets are strict less-than tests going
up: seconds below 1 give `"instant"`, and seconds in `[60, 3600)` give a
minutes string. -/
theorem analyzeStrength_crackTime_buckets (p : List Char) :
    (analyzeStrength p).crackTime = estimateCrackTime (entropyOf p) ∧
    (crackSeconds (entropyOf p) < 1 →
      (analyzeStrength p).crackTime = String.toList "instant") ∧
    (60 ≤ crackSeconds (entropyOf p) → crackSeconds (entropyOf p) < 3600 →
      (analyzeStrength p).crackTime =
        String.toList (toString (round (crackSeconds (entropyOf p) / 60))) ++
          String.toList " minutes") := by
  refine ⟨rfl, fun h => ?_, fun h1 h2 => ?_⟩
  · rw [analyzeStrength_crackTime_eq]
    exact estimateCrackTime_instant _ h
  · rw [analyzeStrength_crackTime_eq]
    unfold estimateCrackTime
    rw [if_neg (by linarith), if_neg (by linarith), if_pos h2]

/-- Witness for C8: the empty password falls in the `"instant"` bucket and
thirteen digits (entropy `13 * log2 10`, 500 seconds) fall in the minutes
bucket with the string `"8 minutes"`. -/
theorem analyzeStrength_crackTime_buckets_witness :
    (analyzeStrength []).crackTime = String.toList "instant" ∧
    (analyzeStrength (List.replicate 13 '4')).crackTime = String.toList "8 minutes" := by
  constructor
  · exact (analyzeStrength_crackTime_buckets []).2.1
      (by rw [entropyOf_nil]; exact crackSeconds_zero_lt_one)
  · have hcs : charsetSizeOf (List.replicate 13 '4') = 10 := by decide
    have hlen : (List.replicate 13 '4').length = 13 := by simp
    have hent : entropyOf (List.replicate 13 '4') = 13 * Real.logb 2 10 := by
      unfold entropyOf
      rw [hcs, hlen]
      norm_num
    have hsec : crackSeconds (entropyOf (List.replicate 13 '4')) = 500 := by
      rw [hent]
      unfold crackSeconds
      rw [show (13:ℝ) * Real.logb 2 10 = Real.logb 2 ((10:ℝ) ^ (13:ℕ)) by
        rw [Real.logb_pow]; norm_num]
      rw [Real.rpow_logb (by norm_num) (by norm_num) (by positivity)]
      norm_num
    have h := (analyzeStrength_crackTime_buckets (List.replicate 13 '4')).2.2
      (by rw [hsec]; norm_num) (by rw [hsec]; norm_num)
    rw [h, hsec]
    have hr : round ((500:ℝ)/60) = 8 := by
      rw [round_eq, Int.floor_eq_iff]
      constructor
      · push_cast; norm_num
      · push_cast; norm_num
    rw [hr]
    decide

end VibePassword
